import Mathlib

/-!
Verification of the extension-registry core of the Envisage plugin framework.

This file is a shallow embedding of `envisage/extension_registry.py`
(class `ExtensionRegistry`) and of `envisage/extension_point.py`
(class `_ExtensionPointValue` and the module-level `_get_extensions`).

Python dictionaries are modelled as insertion-ordered association lists;
mutation is modelled by explicit state passing; exceptions by `Except`;
weak references to listeners by plain listener identities (`Nat`) that are
dereferenced against an `alive` set at dispatch time, matching the fact
that expiry of a `weakref.ref`/`weakref.WeakMethod` is observed only when
the reference is called.
-/

set_option autoImplicit false

namespace Envisage

universe u v

variable {K : Type u} {V : Type v}

/-- Lookup in an insertion-ordered association list, as `d[k]` / `d.get(k)`
on a Python dict (keys are unique in an actual dict, so first match wins). -/
def dictLookup [DecidableEq K] (k : K) : List (K × V) → Option V
  | [] => none
  | (k₁, v₁) :: rest => if k₁ = k then some v₁ else dictLookup k rest

/-- Embeds `d[k] = v` on a Python dict: replace the value at an existing key in
place, otherwise append the new binding at the end. -/
def dictInsert [DecidableEq K] (k : K) (v : V) : List (K × V) → List (K × V)
  | [] => [(k, v)]
  | (k₁, v₁) :: rest =>
      if k₁ = k then (k, v) :: rest else (k₁, v₁) :: dictInsert k v rest

/-- Embeds `del d[k]` on a Python dict: drop the binding with key `k`. -/
def dictErase [DecidableEq K] (k : K) : List (K × V) → List (K × V)
  | [] => []
  | (k₁, v₁) :: rest => if k₁ = k then rest else (k₁, v₁) :: dictErase k rest

/-- Embeds `d.setdefault(k, dflt)` on a Python dict: return the stored value if the
key is present, otherwise insert `dflt` under `k` and return it, together
with the dict after the call. -/
def dictSetdefault [DecidableEq K] (k : K) (dflt : V) (d : List (K × V)) :
    V × List (K × V) :=
  match dictLookup k d with
  | some v => (v, d)
  | none => (dflt, d ++ [(k, dflt)])

/-- The keys of an association list, in order. -/
def dictKeys (d : List (K × V)) : List K := d.map Prod.fst

/-- An `ExtensionPoint` descriptor; of the trait type only the `id` is
relevant to the registry (`extension_registry.py` touches nothing else). -/
structure ExtensionPoint where
  id : String
  deriving DecidableEq, Repr

/-- Embeds `ExtensionPointChangedEvent`: one change notification, with the
contributions added, the contributions removed, and the optional position. -/
structure ExtensionPointChangedEvent (V : Type v) where
  extension_point_id : String
  added : List V
  removed : List V
  index : Option Nat
  deriving DecidableEq, Repr

/-- The exceptions raised by the embedded code: `UnknownExtensionPoint`
from `extension_registry.py`, `ValueError` from `list.remove`, and
`IndexError` from out-of-range list access. -/
inductive Err where
  | unknownExtensionPoint (id : String)
  | valueError
  | indexError
  deriving DecidableEq, Repr

/-- The mutable state of an `ExtensionRegistry` instance: the
`_extensions` dict (extension point id to contributed extensions), the
`_extension_points` dict (id to descriptor), and the `_listeners` dict
(extension point id, or `none` for the wildcard key `None`, to the list of
listener references in registration order). A listener reference is the
identity (`Nat`) of the listener the weak reference was taken of. -/
structure RegistryState (V : Type v) where
  extensions : List (String × List V)
  extension_points : List (String × ExtensionPoint)
  listeners : List (Option String × List Nat)
  deriving DecidableEq, Repr

/-- The state of a freshly constructed `ExtensionRegistry`: all three
dicts empty. -/
def initialRegistry (V : Type v) : RegistryState V := ⟨[], [], []⟩

/-- Dereference a listener weak reference at dispatch time: the listener
itself if its referent is still alive, `None` otherwise. -/
def deref (alive : List Nat) (r : Nat) : Option Nat :=
  if r ∈ alive then some r else none

/-- Embeds `ExtensionRegistry._check_extension_point`: raise
`UnknownExtensionPoint` unless the id is a key of `_extension_points`. -/
def check_extension_point (s : RegistryState V) (id : String) :
    Except Err Unit :=
  if (dictLookup id s.extension_points).isSome then .ok ()
  else .error (.unknownExtensionPoint id)

/-- Embeds `ExtensionRegistry._get_extensions`:
`self._extensions.setdefault(extension_point_id, [])` — returns the stored
list and the registry state after the `setdefault` side effect. -/
def protected_get_extensions (s : RegistryState V) (id : String) :
    List V × RegistryState V :=
  let (v, ext) := dictSetdefault id [] s.extensions
  (v, { s with extensions := ext })

/-- Embeds `ExtensionRegistry.get_extensions`: the stored contributions, returned
as the copy `self._get_extensions(extension_point_id)[:]` (copies are
equal as values in the pure model; the aliasing consequences of the copy
are modelled separately in `AliasModel`). -/
def get_extensions (s : RegistryState V) (id : String) :
    List V × RegistryState V :=
  protected_get_extensions s id

/-- Embeds `ExtensionRegistry.get_extension_point`:
`self._extension_points.get(extension_point_id)`. -/
def get_extension_point (s : RegistryState V) (id : String) :
    Option ExtensionPoint :=
  dictLookup id s.extension_points

/-- Embeds `ExtensionRegistry.get_extension_points`:
`list(self._extension_points.values())`. -/
def get_extension_points (s : RegistryState V) : List ExtensionPoint :=
  s.extension_points.map Prod.snd

/-- Embeds `ExtensionRegistry.add_extension_point`:
`self._extension_points[extension_point.id] = extension_point`. -/
def add_extension_point (s : RegistryState V) (ep : ExtensionPoint) :
    RegistryState V :=
  { s with extension_points := dictInsert ep.id ep s.extension_points }

/-- Embeds `ExtensionRegistry.add_extension_point_listener`:
`self._listeners.setdefault(extension_point_id, []).append(_saferef(listener))`.
`ref` is the identity of the listener the weak reference is taken of. -/
def add_extension_point_listener (s : RegistryState V) (ref : Nat)
    (extension_point_id : Option String) : RegistryState V :=
  let (ls, table) := dictSetdefault extension_point_id [] s.listeners
  { s with listeners := dictInsert extension_point_id (ls ++ [ref]) table }

/-- Embeds `ExtensionRegistry.remove_extension_point_listener`:
`self._listeners.setdefault(extension_point_id, []).remove(_saferef(listener))`
— `list.remove` raises `ValueError` when the reference is absent; the
`setdefault` side effect happens either way. -/
def remove_extension_point_listener (s : RegistryState V) (ref : Nat)
    (extension_point_id : Option String) :
    Except Err Unit × RegistryState V :=
  let (ls, table) := dictSetdefault extension_point_id [] s.listeners
  if ref ∈ ls then
    (.ok (),
      { s with listeners := dictInsert extension_point_id (ls.erase ref) table })
  else
    (.error .valueError, { s with listeners := table })

/-- Embeds `ExtensionRegistry._get_listener_refs`: references of the listeners
listening to this extension point specifically, followed by those
listening to every extension point (key `None`). -/
def get_listener_refs (s : RegistryState V) (id : String) : List Nat :=
  ((dictLookup (some id) s.listeners).getD [])
    ++ ((dictLookup (none : Option String) s.listeners).getD [])

/-- Embeds `ExtensionRegistry._call_listeners`: build one
`ExtensionPointChangedEvent` and call, in order, every reference that
still dereferences to a live listener, skipping the dead ones. The result
is the trace of calls made, each pairing the listener called with the
event it received. -/
def call_listeners (alive : List Nat) (refs : List Nat) (id : String)
    (added removed : List V) (index : Option Nat) :
    List (Nat × ExtensionPointChangedEvent V) :=
  let event : ExtensionPointChangedEvent V := ⟨id, added, removed, index⟩
  refs.filterMap fun r => (deref alive r).map fun l => (l, event)

/-- Embeds `ExtensionRegistry.set_extensions`: check the descriptor exists, read
the old value (with `_get_extensions`' `setdefault` side effect), store
the new value, and synchronously notify the matching listeners with
`added=extensions, removed=old, index=None`. Returns the exception or the
call trace, together with the registry state after the call. -/
def set_extensions (alive : List Nat) (s : RegistryState V) (id : String)
    (exts : List V) :
    Except Err (List (Nat × ExtensionPointChangedEvent V)) × RegistryState V :=
  match check_extension_point s id with
  | .error e => (.error e, s)
  | .ok _ =>
    let (old, s₁) := protected_get_extensions s id
    let s₂ := { s₁ with extensions := dictInsert id exts s₁.extensions }
    let refs := get_listener_refs s₂ id
    (.ok (call_listeners alive refs id exts old none), s₂)

/-- Embeds `ExtensionRegistry.remove_extension_point`: check the descriptor
exists, delete it, delete the stored contributions (capturing the old
value, `[]` when there were none), and synchronously notify the matching
listeners with `added=[], removed=old, index=0` (the source passes the
literal `0`, not `None`). -/
def remove_extension_point (alive : List Nat) (s : RegistryState V)
    (id : String) :
    Except Err (List (Nat × ExtensionPointChangedEvent V)) × RegistryState V :=
  match check_extension_point s id with
  | .error e => (.error e, s)
  | .ok _ =>
    let pts := dictErase id s.extension_points
    let (old, ext) :=
      match dictLookup id s.extensions with
      | some o => (o, dictErase id s.extensions)
      | none => ([], s.extensions)
    let s₂ := { s with extension_points := pts, extensions := ext }
    let refs := get_listener_refs s₂ id
    (.ok (call_listeners alive refs id [] old (some 0)), s₂)

/-- The state written by a successful `set_extensions` call. -/
def afterSet (s : RegistryState V) (id : String) (exts : List V) :
    RegistryState V :=
  { s with extensions := dictInsert id exts (dictSetdefault id [] s.extensions).2 }

/-- The state left behind by a successful `remove_extension_point` call. -/
def afterRemove (s : RegistryState V) (id : String) : RegistryState V :=
  { s with extension_points := dictErase id s.extension_points,
           extensions := dictErase id s.extensions }

/-! Reachable registry states and their invariants. -/

/-- Registry states reachable from a freshly constructed registry through
the `IExtensionRegistry` interface (with any listener liveness at each
dispatching call). -/
inductive Reachable : RegistryState V → Prop where
  | init : Reachable (initialRegistry V)
  | add_point {s : RegistryState V} (ep : ExtensionPoint) :
      Reachable s → Reachable (add_extension_point s ep)
  | add_listener {s : RegistryState V} (r : Nat) (id : Option String) :
      Reachable s → Reachable (add_extension_point_listener s r id)
  | remove_listener {s : RegistryState V} (r : Nat) (id : Option String) :
      Reachable s → Reachable (remove_extension_point_listener s r id).2
  | set_exts {s : RegistryState V} (alive : List Nat) (id : String)
      (exts : List V) : Reachable s → Reachable (set_extensions alive s id exts).2
  | remove_point {s : RegistryState V} (alive : List Nat) (id : String) :
      Reachable s → Reachable (remove_extension_point alive s id).2
  | get_exts {s : RegistryState V} (id : String) :
      Reachable s → Reachable (get_extensions s id).2

/-- Invariant: the `_extensions` dict has no duplicate keys, and an id
without a registered descriptor has no stored contributions beyond the
empty list that `_get_extensions`' `setdefault` may have created. -/
def RegistryInv (s : RegistryState V) : Prop :=
  (dictKeys s.extensions).Nodup ∧
    ∀ id, dictLookup id s.extension_points = none →
      dictLookup id s.extensions = none ∨ dictLookup id s.extensions = some []

/-! Python list primitives, used by the `TraitList` superclass methods that
`_ExtensionPointValue` inherits or guards (`extension_point.py`). -/

/-- Python index normalisation: a negative index counts from the end. -/
def pyNorm (n : Nat) (i : Int) : Int := if i < 0 then i + n else i

/-- Embeds `l[i]` for an integer index: `IndexError` when out of range. -/
def pyGetIdx (l : List V) (i : Int) : Except Err V :=
  let j := pyNorm l.length i
  if j < 0 then .error .indexError
  else
    match l.get? j.toNat with
    | some x => .ok x
    | none => .error .indexError

/-- Embeds `l[i] = x` for an integer index: `IndexError` when out of range. -/
def pySetIdx (l : List V) (i : Int) (x : V) : Except Err (List V) :=
  let j := pyNorm l.length i
  if 0 ≤ j ∧ j.toNat < l.length then .ok (l.set j.toNat x)
  else .error .indexError

/-- Embeds `del l[i]` for an integer index: `IndexError` when out of range. -/
def pyDelIdx (l : List V) (i : Int) : Except Err (List V) :=
  let j := pyNorm l.length i
  if 0 ≤ j ∧ j.toNat < l.length then .ok (l.eraseIdx j.toNat)
  else .error .indexError

/-- Clamp a normalised slice endpoint into `[0, n]`. -/
def pyClampIdx (n : Nat) (i : Int) : Nat := if i < 0 then 0 else min i.toNat n

/-- The `(start, stop)` pair a step-one Python slice `l[a:b]` resolves to
(missing endpoints default to the ends; `stop` never precedes `start`). -/
def pySliceBounds (n : Nat) (a b : Option Int) : Nat × Nat :=
  let lo := pyClampIdx n (pyNorm n (a.getD 0))
  let hi := pyClampIdx n (pyNorm n (b.getD (n : Int)))
  (lo, max lo hi)

/-- Embeds `l[a:b]` (step-one slice read, never fails). -/
def pyGetSlice (l : List V) (a b : Option Int) : List V :=
  let (lo, hi) := pySliceBounds l.length a b
  (l.take hi).drop lo

/-- Embeds `l[a:b] = xs` (step-one slice assignment, never fails). -/
def pySetSlice (l : List V) (a b : Option Int) (xs : List V) : List V :=
  let (lo, hi) := pySliceBounds l.length a b
  l.take lo ++ xs ++ l.drop hi

/-- Embeds `del l[a:b]` (step-one slice deletion, never fails). -/
def pyDelSlice (l : List V) (a b : Option Int) : List V :=
  let (lo, hi) := pySliceBounds l.length a b
  l.take lo ++ l.drop hi

/-- Embeds `_ExtensionPointValue` (`extension_point.py`): the value handed out
when an `ExtensionPoint` trait is read. `backing` is the contents of the
underlying `TraitList`; `internal_use` is the `_internal_use` flag toggled
by `_internal_sync`; `bound_id` is the extension point id that the
`(_object, _name)` pair set by `_set_reference` resolves to through
`_get_extension_registry`. -/
structure ExtensionPointValue (V : Type v) where
  backing : List V
  internal_use : Bool
  bound_id : String
  deriving DecidableEq, Repr

/-- Module-level `_get_extensions(object, name)` of `extension_point.py`:
look up the bound registry and return
`extension_registry.get_extensions(extension_point.id)`. -/
def view_registry_extensions (s : RegistryState V)
    (v : ExtensionPointValue V) : List V × RegistryState V :=
  get_extensions s v.bound_id

namespace ExtensionPointValue

variable {V : Type v}

/-- Embeds `_ExtensionPointValue.__eq__`: compare the registry's current value
(outside the trusted path) or the backing list (inside it). -/
def eqList [DecidableEq V] (s : RegistryState V) (v : ExtensionPointValue V)
    (other : List V) : Bool × RegistryState V :=
  if v.internal_use then (decide (v.backing = other), s)
  else
    let (xs, s₁) := view_registry_extensions s v
    (decide (xs = other), s₁)

/-- Embeds `_ExtensionPointValue.__getitem__` with an integer key. -/
def getitem_idx (s : RegistryState V) (v : ExtensionPointValue V) (i : Int) :
    Except Err V × RegistryState V :=
  if v.internal_use then (pyGetIdx v.backing i, s)
  else
    let (xs, s₁) := view_registry_extensions s v
    (pyGetIdx xs i, s₁)

/-- Embeds `_ExtensionPointValue.__getitem__` with a slice key. -/
def getitem_slice (s : RegistryState V) (v : ExtensionPointValue V)
    (a b : Option Int) : List V × RegistryState V :=
  if v.internal_use then (pyGetSlice v.backing a b, s)
  else
    let (xs, s₁) := view_registry_extensions s v
    (pyGetSlice xs a b, s₁)

/-- Embeds `_ExtensionPointValue.__len__`. -/
def len (s : RegistryState V) (v : ExtensionPointValue V) :
    Nat × RegistryState V :=
  if v.internal_use then (v.backing.length, s)
  else
    let (xs, s₁) := view_registry_extensions s v
    (xs.length, s₁)

/-- Embeds `_ExtensionPointValue.__setitem__` with an integer key: outside the
trusted path, warn and do nothing; inside it, `TraitList.__setitem__`.
Results: outcome, the view after the call, the registry state after the
call, and whether the `RuntimeWarning` diagnostic was emitted. -/
def setitem_idx (s : RegistryState V) (v : ExtensionPointValue V) (i : Int)
    (x : V) : Except Err Unit × ExtensionPointValue V × RegistryState V × Bool :=
  if v.internal_use then
    match pySetIdx v.backing i x with
    | .ok l => (.ok (), { v with backing := l }, s, false)
    | .error e => (.error e, v, s, false)
  else (.ok (), v, s, true)

/-- Embeds `_ExtensionPointValue.__setitem__` with a slice key. -/
def setitem_slice (s : RegistryState V) (v : ExtensionPointValue V)
    (a b : Option Int) (xs : List V) :
    Except Err Unit × ExtensionPointValue V × RegistryState V × Bool :=
  if v.internal_use then
    (.ok (), { v with backing := pySetSlice v.backing a b xs }, s, false)
  else (.ok (), v, s, true)

/-- Embeds `_ExtensionPointValue.__delitem__` with an integer key. -/
def delitem_idx (s : RegistryState V) (v : ExtensionPointValue V) (i : Int) :
    Except Err Unit × ExtensionPointValue V × RegistryState V × Bool :=
  if v.internal_use then
    match pyDelIdx v.backing i with
    | .ok l => (.ok (), { v with backing := l }, s, false)
    | .error e => (.error e, v, s, false)
  else (.ok (), v, s, true)

/-- Embeds `_ExtensionPointValue.__delitem__` with a slice key. -/
def delitem_slice (s : RegistryState V) (v : ExtensionPointValue V)
    (a b : Option Int) :
    Except Err Unit × ExtensionPointValue V × RegistryState V × Bool :=
  if v.internal_use then
    (.ok (), { v with backing := pyDelSlice v.backing a b }, s, false)
  else (.ok (), v, s, true)

/-- Embeds `_ExtensionPointValue.__iadd__`: always warns, mutates nothing, and
returns `self[:]` (which the `+=` statement rebinds the name to). -/
def iadd (s : RegistryState V) (v : ExtensionPointValue V) (_xs : List V) :
    List V × ExtensionPointValue V × RegistryState V × Bool :=
  let (r, s₁) := getitem_slice s v none none
  (r, v, s₁, true)

/-- Embeds `_ExtensionPointValue.__imul__`: always warns, mutates nothing, and
returns `self[:]`. -/
def imul (s : RegistryState V) (v : ExtensionPointValue V) (_n : Nat) :
    List V × ExtensionPointValue V × RegistryState V × Bool :=
  let (r, s₁) := getitem_slice s v none none
  (r, v, s₁, true)

/-- Embeds `_ExtensionPointValue.append`: always warns, mutates nothing. -/
def append (s : RegistryState V) (v : ExtensionPointValue V) (_x : V) :
    ExtensionPointValue V × RegistryState V × Bool :=
  (v, s, true)

/-- Embeds `_ExtensionPointValue.clear`: always warns, mutates nothing. -/
def clear (s : RegistryState V) (v : ExtensionPointValue V) :
    ExtensionPointValue V × RegistryState V × Bool :=
  (v, s, true)

/-- Embeds `_ExtensionPointValue.extend`: always warns, mutates nothing. -/
def extend (s : RegistryState V) (v : ExtensionPointValue V) (_xs : List V) :
    ExtensionPointValue V × RegistryState V × Bool :=
  (v, s, true)

/-- Embeds `_ExtensionPointValue.insert`: always warns, mutates nothing. -/
def insert (s : RegistryState V) (v : ExtensionPointValue V) (_i : Int)
    (_x : V) : ExtensionPointValue V × RegistryState V × Bool :=
  (v, s, true)

/-- Embeds `_ExtensionPointValue.pop`: always warns, mutates nothing. -/
def pop (s : RegistryState V) (v : ExtensionPointValue V) (_i : Int) :
    ExtensionPointValue V × RegistryState V × Bool :=
  (v, s, true)

/-- Embeds `_ExtensionPointValue.remove`: always warns, mutates nothing. -/
def remove (s : RegistryState V) (v : ExtensionPointValue V) (_x : V) :
    ExtensionPointValue V × RegistryState V × Bool :=
  (v, s, true)

end ExtensionPointValue

/-- The conclusion of claim C3, at a registry state and a view: every
direct mutation attempt (append, insert, remove, item assignment, slice
assignment, `+=`, `*=`, clear, pop, extend, delete-item) raises no
exception (`.ok`, or a total result), emits the `RuntimeWarning`
diagnostic (the final `true`), hands the view back unchanged, and leaves
the registry's stored value unchanged for every id — hence, by C7, the
view's externally observable contents are unchanged too. For `+=` and
`*=`, which read `self[:]` and so thread the registry state through
`get_extensions`' `setdefault`, the state is preserved up to stored
values rather than syntactically. -/
def ReadOnlyViewSpec (s : RegistryState V) (v : ExtensionPointValue V) :
    Prop :=
  (∀ x, ExtensionPointValue.append s v x = (v, s, true))
  ∧ (∀ i x, ExtensionPointValue.insert s v i x = (v, s, true))
  ∧ (∀ x, ExtensionPointValue.remove s v x = (v, s, true))
  ∧ (∀ i x, ExtensionPointValue.setitem_idx s v i x = (.ok (), v, s, true))
  ∧ (∀ a b xs,
      ExtensionPointValue.setitem_slice s v a b xs = (.ok (), v, s, true))
  ∧ (∀ xs, (ExtensionPointValue.iadd s v xs).2.1 = v
      ∧ (ExtensionPointValue.iadd s v xs).2.2.2 = true
      ∧ ∀ id, (get_extensions (ExtensionPointValue.iadd s v xs).2.2.1 id).1
          = (get_extensions s id).1)
  ∧ (∀ n, (ExtensionPointValue.imul s v n).2.1 = v
      ∧ (ExtensionPointValue.imul s v n).2.2.2 = true
      ∧ ∀ id, (get_extensions (ExtensionPointValue.imul s v n).2.2.1 id).1
          = (get_extensions s id).1)
  ∧ ExtensionPointValue.clear s v = (v, s, true)
  ∧ (∀ i, ExtensionPointValue.pop s v i = (v, s, true))
  ∧ (∀ xs, ExtensionPointValue.extend s v xs = (v, s, true))
  ∧ (∀ i, ExtensionPointValue.delitem_idx s v i = (.ok (), v, s, true))
  ∧ (∀ a b, ExtensionPointValue.delitem_slice s v a b = (.ok (), v, s, true))

/-- Spec-side definition for the refinement claim C7, following the
spec's words: the accessors must return "the values derived from the
registry's current extensions for that id". -/
def specDerivedValue (s : RegistryState V) (id : String) : List V :=
  (get_extensions s id).1

/-- The conclusion of claim C7, at a registry state and a view: equality
comparison, length and item indexing (integer and slice) return the
values derived from the registry's current extensions for the bound id —
and they keep doing so whatever list the view's cached backing store
holds, so a stale cache never shows through these accessors. -/
def AccessorRederiveSpec [DecidableEq V] (s : RegistryState V)
    (v : ExtensionPointValue V) : Prop :=
  (∀ other, (ExtensionPointValue.eqList s v other).1
      = decide (specDerivedValue s v.bound_id = other))
  ∧ (ExtensionPointValue.len s v).1 = (specDerivedValue s v.bound_id).length
  ∧ (∀ i, (ExtensionPointValue.getitem_idx s v i).1
      = pyGetIdx (specDerivedValue s v.bound_id) i)
  ∧ (∀ a b, (ExtensionPointValue.getitem_slice s v a b).1
      = pyGetSlice (specDerivedValue s v.bound_id) a b)
  ∧ (∀ bk other,
      (ExtensionPointValue.eqList s { v with backing := bk } other).1
        = (ExtensionPointValue.eqList s v other).1)
  ∧ (∀ bk, (ExtensionPointValue.len s { v with backing := bk }).1
      = (ExtensionPointValue.len s v).1)
  ∧ (∀ bk i, (ExtensionPointValue.getitem_idx s { v with backing := bk } i).1
      = (ExtensionPointValue.getitem_idx s v i).1)

/-! A heap model of `ExtensionRegistry.get_extensions` /
`ExtensionRegistry._get_extensions`, making the aliasing behaviour of the
`[:]` copy explicit: Python lists live in a heap of cells and the registry
stores cell addresses, so "mutating the returned list" is a write to the
returned address. The two functions are the same two methods of
`extension_registry.py` as above, with list identity retained. -/

namespace AliasModel

/-- A heap of Python list objects; the address of a cell is its index,
and allocation appends. -/
structure Heap (V : Type v) where
  cells : List (List V)
  deriving DecidableEq, Repr

/-- The contents of the list object at address `a`. -/
def readCell (h : Heap V) (a : Nat) : List V := (h.cells.get? a).getD []

/-- Overwrite the contents of the list object at address `a` (a mutation
of that list, e.g. `lst.append(...)` by the caller). -/
def writeCell (h : Heap V) (a : Nat) (xs : List V) : Heap V :=
  ⟨h.cells.set a xs⟩

/-- Allocate a fresh list object holding `xs`. -/
def allocCell (h : Heap V) (xs : List V) : Nat × Heap V :=
  (h.cells.length, ⟨h.cells ++ [xs]⟩)

/-- The `_extensions` side of the registry, with stored lists as heap
addresses. -/
structure RegState (V : Type v) where
  heap : Heap V
  extensions : List (String × Nat)
  deriving DecidableEq, Repr

/-- Embeds `ExtensionRegistry._get_extensions`:
`self._extensions.setdefault(extension_point_id, [])` — the address of the
stored list, allocating a fresh empty list when the id is absent. -/
def protected_get_extensions (s : RegState V) (id : String) :
    Nat × RegState V :=
  match dictLookup id s.extensions with
  | some a => (a, s)
  | none =>
    let (a, h) := allocCell s.heap []
    (a, ⟨h, s.extensions ++ [(id, a)]⟩)

/-- Embeds `ExtensionRegistry.get_extensions`:
`self._get_extensions(extension_point_id)[:]` — the `[:]` allocates a new
list object holding a copy of the stored contents and returns its
address. -/
def get_extensions (s : RegState V) (id : String) : Nat × RegState V :=
  let (a, s₁) := protected_get_extensions s id
  let (b, h) := allocCell s₁.heap (readCell s₁.heap a)
  (b, { s₁ with heap := h })

/-- The registry's stored value for an id, as list contents ( `[]` when
nothing is stored). -/
def storedValue (s : RegState V) (id : String) : List V :=
  match dictLookup id s.extensions with
  | some a => readCell s.heap a
  | none => []

/-- Well-formed heap states: every stored address points into the heap. -/
def WF (s : RegState V) : Prop :=
  ∀ id a, dictLookup id s.extensions = some a → a < s.heap.cells.length

/-- The list contents a caller of `get_extensions` observes, with the
state after the call. -/
def getValue (s : RegState V) (id : String) : List V × RegState V :=
  let (b, s₁) := get_extensions s id
  (readCell s₁.heap b, s₁)

/-- The state after the caller mutates (overwrites with `xs`) the list
object `get_extensions` returned. -/
def mutateReturned (s : RegState V) (id : String) (xs : List V) :
    RegState V :=
  let (b, s₁) := get_extensions s id
  { s₁ with heap := writeCell s₁.heap b xs }

end AliasModel

/-! Lemmas. All theorems of the development follow; the definitions above
are complete. -/

/-! Lemmas about the Python-dict model. -/

theorem dictLookup_insert_self [DecidableEq K] (k : K) (v : V)
    (d : List (K × V)) : dictLookup k (dictInsert k v d) = some v := by
  induction d with
  | nil => simp [dictInsert, dictLookup]
  | cons hd tl ih =>
    obtain ⟨k₁, v₁⟩ := hd
    by_cases h : k₁ = k <;> simp [dictInsert, dictLookup, h, ih]

theorem dictLookup_insert_ne [DecidableEq K] {k k₁ : K} (h : k₁ ≠ k)
    (v : V) (d : List (K × V)) :
    dictLookup k (dictInsert k₁ v d) = dictLookup k d := by
  induction d with
  | nil => simp [dictInsert, dictLookup, h]
  | cons hd tl ih =>
    obtain ⟨k₂, v₂⟩ := hd
    by_cases h₂ : k₂ = k₁ <;> by_cases h₃ : k₂ = k <;>
      simp_all [dictInsert, dictLookup]

theorem dictLookup_erase_ne [DecidableEq K] {k k₁ : K} (h : k₁ ≠ k)
    (d : List (K × V)) : dictLookup k (dictErase k₁ d) = dictLookup k d := by
  induction d with
  | nil => simp [dictErase, dictLookup]
  | cons hd tl ih =>
    obtain ⟨k₂, v₂⟩ := hd
    by_cases h₂ : k₂ = k₁ <;> by_cases h₃ : k₂ = k <;>
      simp_all [dictErase, dictLookup]

theorem dictLookup_eq_none_iff [DecidableEq K] {k : K} {d : List (K × V)} :
    dictLookup k d = none ↔ k ∉ dictKeys d := by
  induction d with
  | nil => simp [dictLookup, dictKeys]
  | cons hd tl ih =>
    obtain ⟨k₁, v₁⟩ := hd
    by_cases h : k₁ = k <;> simp_all [dictLookup, dictKeys, eq_comm]

theorem dictLookup_erase_self [DecidableEq K] {k : K} {d : List (K × V)}
    (h : (dictKeys d).Nodup) : dictLookup k (dictErase k d) = none := by
  induction d with
  | nil => simp [dictErase, dictLookup]
  | cons hd tl ih =>
    obtain ⟨k₁, v₁⟩ := hd
    simp only [dictKeys, List.map_cons, List.nodup_cons] at h
    by_cases h₁ : k₁ = k
    · subst h₁
      simp only [dictErase, if_pos rfl]
      exact dictLookup_eq_none_iff.2 h.1
    · simp only [dictErase, if_neg h₁, dictLookup, if_neg h₁]
      exact ih h.2

theorem dictSetdefault_fst [DecidableEq K] (k : K) (dflt : V)
    (d : List (K × V)) :
    (dictSetdefault k dflt d).1 = (dictLookup k d).getD dflt := by
  unfold dictSetdefault
  cases h : dictLookup k d <;> simp [h]

theorem dictLookup_append_singleton [DecidableEq K] {k : K} {d : List (K × V)}
    (h : dictLookup k d = none) (k₁ : K) (v : V) :
    dictLookup k (d ++ [(k₁, v)]) = if k₁ = k then some v else none := by
  induction d with
  | nil => simp [dictLookup]
  | cons hd tl ih =>
    obtain ⟨k₂, v₂⟩ := hd
    by_cases h₂ : k₂ = k <;> simp_all [dictLookup]

theorem dictLookup_setdefault_self [DecidableEq K] (k : K) (dflt : V)
    (d : List (K × V)) :
    dictLookup k (dictSetdefault k dflt d).2
      = some ((dictLookup k d).getD dflt) := by
  unfold dictSetdefault
  cases h : dictLookup k d with
  | some v => simp [h]
  | none => simp [dictLookup_append_singleton h]

theorem dictLookup_append [DecidableEq K] (k : K) (d d₁ : List (K × V)) :
    dictLookup k (d ++ d₁)
      = ((dictLookup k d).map some).getD (dictLookup k d₁) := by
  induction d with
  | nil => simp [dictLookup]
  | cons hd tl ih =>
    obtain ⟨k₂, v₂⟩ := hd
    by_cases h₂ : k₂ = k <;> simp_all [dictLookup]

theorem dictLookup_setdefault_ne [DecidableEq K] {k k₁ : K} (h : k₁ ≠ k)
    (dflt : V) (d : List (K × V)) :
    dictLookup k (dictSetdefault k₁ dflt d).2 = dictLookup k d := by
  unfold dictSetdefault
  cases h₁ : dictLookup k₁ d with
  | some v => simp
  | none =>
    rw [dictLookup_append]
    cases h₂ : dictLookup k d <;> simp [dictLookup, h]

theorem dictKeys_insert_nodup [DecidableEq K] (k : K) (v : V)
    {d : List (K × V)} (h : (dictKeys d).Nodup) :
    (dictKeys (dictInsert k v d)).Nodup := by
  induction d with
  | nil => simp [dictInsert, dictKeys]
  | cons hd tl ih =>
    obtain ⟨k₁, v₁⟩ := hd
    simp only [dictKeys, List.map_cons, List.nodup_cons] at h
    by_cases h₁ : k₁ = k
    · subst h₁
      simpa [dictInsert, dictKeys] using h
    · simp only [dictInsert, if_neg h₁, dictKeys, List.map_cons,
        List.nodup_cons]
      refine ⟨fun hmem => ?_, ih h.2⟩
      have : k₁ ∈ dictKeys tl ∨ k₁ = k := by
        clear ih h
        induction tl with
        | nil => simpa [dictInsert, dictKeys] using hmem
        | cons hd₂ tl₂ ih₂ =>
          obtain ⟨k₂, v₂⟩ := hd₂
          by_cases h₂ : k₂ = k
          · simp_all [dictInsert, dictKeys]
          · simp_all [dictInsert, dictKeys]
            tauto
      rcases this with h₂ | h₂
      · exact h.1 h₂
      · exact h₁ h₂

theorem dictKeys_erase_sublist [DecidableEq K] (k : K) (d : List (K × V)) :
    (dictKeys (dictErase k d)).Sublist (dictKeys d) := by
  induction d with
  | nil => simp [dictErase, dictKeys]
  | cons hd tl ih =>
    obtain ⟨k₁, v₁⟩ := hd
    by_cases h : k₁ = k
    · simp only [dictErase, if_pos h, dictKeys, List.map_cons]
      exact List.sublist_cons_self k₁ (dictKeys tl)
    · simp only [dictErase, if_neg h, dictKeys, List.map_cons]
      exact ih.cons₂ k₁

theorem dictKeys_erase_nodup [DecidableEq K] (k : K) {d : List (K × V)}
    (h : (dictKeys d).Nodup) : (dictKeys (dictErase k d)).Nodup :=
  (dictKeys_erase_sublist k d).nodup h

theorem dictKeys_setdefault_nodup [DecidableEq K] (k : K) (dflt : V)
    {d : List (K × V)} (h : (dictKeys d).Nodup) :
    (dictKeys (dictSetdefault k dflt d).2).Nodup := by
  unfold dictSetdefault
  cases h₁ : dictLookup k d with
  | some v => simpa
  | none =>
    have hk : k ∉ dictKeys d := dictLookup_eq_none_iff.1 h₁
    simpa [dictKeys] using List.Nodup.append h (by simp) (by
      simpa [dictKeys, List.disjoint_singleton] using hk)

/-! Lemmas about listener dispatch. -/

theorem call_listeners_append (alive : List Nat) (refs₁ refs₂ : List Nat)
    (id : String) (added removed : List V) (index : Option Nat) :
    call_listeners alive (refs₁ ++ refs₂) id added removed index
      = call_listeners alive refs₁ id added removed index
        ++ call_listeners alive refs₂ id added removed index := by
  simp [call_listeners]

theorem call_listeners_eq_filter (alive : List Nat) (refs : List Nat)
    (id : String) (added removed : List V) (index : Option Nat) :
    call_listeners alive refs id added removed index
      = (refs.filter fun r => decide (r ∈ alive)).map
          (fun l => (l, ⟨id, added, removed, index⟩)) := by
  induction refs with
  | nil => simp [call_listeners]
  | cons hd tl ih =>
    by_cases h : hd ∈ alive <;>
      simp_all [call_listeners, deref, List.filter_cons]

/-! Unfolding lemmas for the two mutating operations. -/

theorem dictErase_of_lookup_none [DecidableEq K] {k : K} {d : List (K × V)}
    (h : dictLookup k d = none) : dictErase k d = d := by
  induction d with
  | nil => simp [dictErase]
  | cons hd tl ih =>
    obtain ⟨k₁, v₁⟩ := hd
    by_cases h₁ : k₁ = k <;> simp_all [dictErase, dictLookup]

theorem set_extensions_of_unknown {s : RegistryState V} {id : String}
    (h : dictLookup id s.extension_points = none) (alive : List Nat)
    (exts : List V) :
    set_extensions alive s id exts = (.error (.unknownExtensionPoint id), s) := by
  simp [set_extensions, check_extension_point, h]

theorem set_extensions_of_known {s : RegistryState V} {id : String}
    (h : (dictLookup id s.extension_points).isSome) (alive : List Nat)
    (exts : List V) :
    set_extensions alive s id exts =
      (.ok (call_listeners alive (get_listener_refs (afterSet s id exts) id)
          id exts ((dictLookup id s.extensions).getD []) none),
        afterSet s id exts) := by
  simp only [set_extensions, check_extension_point, if_pos h,
    protected_get_extensions, dictSetdefault_fst, afterSet]

theorem remove_extension_point_of_unknown {s : RegistryState V} {id : String}
    (h : dictLookup id s.extension_points = none) (alive : List Nat) :
    remove_extension_point alive s id
      = (.error (.unknownExtensionPoint id), s) := by
  simp [remove_extension_point, check_extension_point, h]

theorem remove_extension_point_of_known {s : RegistryState V} {id : String}
    (h : (dictLookup id s.extension_points).isSome) (alive : List Nat) :
    remove_extension_point alive s id =
      (.ok (call_listeners alive (get_listener_refs (afterRemove s id) id)
          id [] ((dictLookup id s.extensions).getD []) (some 0)),
        afterRemove s id) := by
  simp only [remove_extension_point, check_extension_point, if_pos h,
    afterRemove]
  cases hold : dictLookup id s.extensions with
  | some o => simp
  | none => simp [dictErase_of_lookup_none hold]

theorem dictLookup_insert_eq_none [DecidableEq K] {k k₁ : K} {v : V}
    {d : List (K × V)} (h : dictLookup k (dictInsert k₁ v d) = none) :
    dictLookup k d = none := by
  by_cases h₁ : k₁ = k
  · subst h₁; simp [dictLookup_insert_self] at h
  · rwa [dictLookup_insert_ne h₁] at h

theorem registryInv_init : RegistryInv (initialRegistry V) :=
  ⟨by simp [initialRegistry, dictKeys],
    by intro id _; simp [initialRegistry, dictLookup]⟩

theorem registryInv_add_point {s : RegistryState V} (ep : ExtensionPoint)
    (ih : RegistryInv s) : RegistryInv (add_extension_point s ep) :=
  ⟨ih.1, fun id hid => ih.2 id (dictLookup_insert_eq_none hid)⟩

theorem registryInv_add_listener {s : RegistryState V} (r : Nat)
    (id : Option String) (ih : RegistryInv s) :
    RegistryInv (add_extension_point_listener s r id) := ih

theorem registryInv_remove_listener {s : RegistryState V} (r : Nat)
    (id : Option String) (ih : RegistryInv s) :
    RegistryInv (remove_extension_point_listener s r id).2 := by
  obtain ⟨h₁, h₂⟩ := ih
  constructor
  · simp only [remove_extension_point_listener]
    split <;> exact h₁
  · intro id₁
    simp only [remove_extension_point_listener]
    split <;> exact h₂ id₁

theorem registryInv_set_exts {s : RegistryState V} (alive : List Nat)
    (id : String) (exts : List V) (ih : RegistryInv s) :
    RegistryInv (set_extensions alive s id exts).2 := by
  obtain ⟨h₁, h₂⟩ := ih
  cases hpts : dictLookup id s.extension_points with
  | none => rw [set_extensions_of_unknown hpts]; exact ⟨h₁, h₂⟩
  | some ep =>
    rw [set_extensions_of_known (by simp [hpts])]
    constructor
    · exact dictKeys_insert_nodup id exts (dictKeys_setdefault_nodup id [] h₁)
    · intro id₁ hid₁
      have hne : id ≠ id₁ := by
        intro hcontra
        subst hcontra
        simp only [afterSet] at hid₁
        rw [hpts] at hid₁
        exact Option.noConfusion hid₁
      simp only [afterSet] at hid₁ ⊢
      rw [dictLookup_insert_ne hne, dictLookup_setdefault_ne hne]
      exact h₂ id₁ hid₁

theorem registryInv_remove_point {s : RegistryState V} (alive : List Nat)
    (id : String) (ih : RegistryInv s) :
    RegistryInv (remove_extension_point alive s id).2 := by
  obtain ⟨h₁, h₂⟩ := ih
  cases hpts : dictLookup id s.extension_points with
  | none => rw [remove_extension_point_of_unknown hpts]; exact ⟨h₁, h₂⟩
  | some ep =>
    rw [remove_extension_point_of_known (by simp [hpts])]
    constructor
    · exact dictKeys_erase_nodup id h₁
    · intro id₁ hid₁
      simp only [afterRemove] at hid₁ ⊢
      by_cases hne : id = id₁
      · subst hne
        left
        exact dictLookup_erase_self h₁
      · rw [dictLookup_erase_ne hne] at hid₁ ⊢
        exact h₂ id₁ hid₁

theorem registryInv_get_exts {s : RegistryState V} (id : String)
    (ih : RegistryInv s) : RegistryInv (get_extensions s id).2 := by
  obtain ⟨h₁, h₂⟩ := ih
  simp only [get_extensions, protected_get_extensions]
  constructor
  · exact dictKeys_setdefault_nodup id [] h₁
  · intro id₁ hid₁
    by_cases hne : id = id₁
    · subst hne
      rw [dictLookup_setdefault_self]
      rcases h₂ id hid₁ with h₃ | h₃ <;> simp [h₃]
    · rw [dictLookup_setdefault_ne hne]
      exact h₂ id₁ hid₁

theorem reachable_inv {s : RegistryState V} (h : Reachable s) :
    RegistryInv s := by
  induction h with
  | init => exact registryInv_init
  | add_point ep _ ih => exact registryInv_add_point ep ih
  | add_listener r id _ ih => exact registryInv_add_listener r id ih
  | remove_listener r id _ ih => exact registryInv_remove_listener r id ih
  | set_exts alive id exts _ ih => exact registryInv_set_exts alive id exts ih
  | remove_point alive id _ ih => exact registryInv_remove_point alive id ih
  | get_exts id _ ih => exact registryInv_get_exts id ih

namespace AliasModel

theorem list_getElem?_append_ne {α : Type u} (l : List α) (c : α) {a : Nat}
    (h : a ≠ l.length) : (l ++ [c])[a]? = l[a]? := by
  induction l generalizing a with
  | nil =>
    cases a with
    | zero => simp at h
    | succ n => simp
  | cons hd tl ih =>
    cases a with
    | zero => simp
    | succ n =>
      simpa using ih (show n ≠ tl.length by
        intro hc; exact h (by simp [hc]))

theorem list_getElem?_append_length {α : Type u} (l : List α) (c : α) :
    (l ++ [c])[l.length]? = some c := by
  induction l with
  | nil => simp
  | cons hd tl ih => simp [ih]

theorem readCell_writeCell_ne (h : Heap V) {a b : Nat} (hab : a ≠ b)
    (xs : List V) : readCell (writeCell h b xs) a = readCell h a := by
  simp only [readCell, writeCell, List.get?_eq_getElem?]
  rw [List.getElem?_set_ne (fun hc => hab hc.symm)]

theorem readCell_append_ne (cs : List (List V)) (c : List V) {a : Nat}
    (ha : a ≠ cs.length) :
    readCell ⟨cs ++ [c]⟩ a = readCell ⟨cs⟩ a := by
  simp only [readCell, List.get?_eq_getElem?]
  rw [list_getElem?_append_ne cs c ha]

theorem readCell_append_last (cs : List (List V)) (c : List V) :
    readCell ⟨cs ++ [c]⟩ cs.length = c := by
  simp [readCell, List.get?_eq_getElem?, list_getElem?_append_length]

theorem readCell_lt_length {s : RegState V} {id : String} {a : Nat}
    (hwf : WF s) (ha : dictLookup id s.extensions = some a) :
    a < s.heap.cells.length := hwf id a ha

theorem get_extensions_of_some {s : RegState V} {id : String} {a : Nat}
    (ha : dictLookup id s.extensions = some a) :
    get_extensions s id
      = (s.heap.cells.length,
          ⟨⟨s.heap.cells ++ [readCell s.heap a]⟩, s.extensions⟩) := by
  simp [get_extensions, protected_get_extensions, ha, allocCell]

theorem get_extensions_of_none {s : RegState V} {id : String}
    (ha : dictLookup id s.extensions = none) :
    get_extensions s id
      = (s.heap.cells.length + 1,
          ⟨⟨(s.heap.cells ++ [[]]) ++ [[]]⟩,
            s.extensions ++ [(id, s.heap.cells.length)]⟩) := by
  simp only [get_extensions, protected_get_extensions, ha, allocCell]
  rw [readCell_append_last]
  simp

/-- Reading through `get_extensions` observes exactly the stored value. -/
theorem getValue_fst (s : RegState V) (id : String) :
    (getValue s id).1 = storedValue s id := by
  cases ha : dictLookup id s.extensions with
  | some a =>
    simp only [getValue, get_extensions_of_some ha, storedValue, ha]
    rw [readCell_append_last]
  | none =>
    simp only [getValue, get_extensions_of_none ha, storedValue, ha]
    have : (s.heap.cells ++ [[]]).length = s.heap.cells.length + 1 := by simp
    rw [show s.heap.cells.length + 1 = (s.heap.cells ++ ([] : List V) :: []).length from by simp]
    rw [readCell_append_last]

/-- Mutating the returned copy does not change the stored value. -/
theorem storedValue_mutateReturned (s : RegState V) (id : String)
    (xs : List V) (hwf : WF s) :
    storedValue (mutateReturned s id xs) id = storedValue s id := by
  cases ha : dictLookup id s.extensions with
  | some a =>
    have halen : a < s.heap.cells.length := hwf id a ha
    simp only [mutateReturned, get_extensions_of_some ha, storedValue, ha]
    rw [readCell_writeCell_ne _ (by omega) xs]
    rw [readCell_append_ne _ _ (by omega)]
  | none =>
    have hlook : dictLookup id (s.extensions ++ [(id, s.heap.cells.length)])
        = some s.heap.cells.length := by
      rw [dictLookup_append_singleton ha]
      simp
    simp only [mutateReturned, get_extensions_of_none ha, storedValue, ha,
      hlook]
    rw [readCell_writeCell_ne _ (by omega) xs]
    rw [show s.heap.cells.length
        = (s.heap.cells ++ ([] : List V) :: []).length - 1 from by simp]
    rw [readCell_append_ne _ _ (by simp)]
    have : (s.heap.cells ++ [([] : List V)]).length - 1
        = s.heap.cells.length := by simp
    rw [this, readCell_append_last]

/-- A second read after mutating the returned copy still observes the
original stored value. -/
theorem getValue_after_mutateReturned (s : RegState V) (id : String)
    (xs : List V) (hwf : WF s) :
    (getValue (mutateReturned s id xs) id).1 = storedValue s id := by
  rw [getValue_fst, storedValue_mutateReturned s id xs hwf]

end AliasModel

/-- C10: `get_extensions` hands back a fresh copy of the stored
contribution list: the copy reads as the stored value, and overwriting
the returned list object changes neither the registry's stored value nor
what a subsequent `get_extensions` call returns. Stated in the heap model
(`AliasModel`), over every well-formed state. -/
theorem C10_get_extensions_returns_fresh_copy (s : AliasModel.RegState V)
    (id : String) (xs : List V) (hwf : AliasModel.WF s) :
    (AliasModel.getValue s id).1 = AliasModel.storedValue s id
    ∧ AliasModel.storedValue (AliasModel.mutateReturned s id xs) id
        = AliasModel.storedValue s id
    ∧ (AliasModel.getValue (AliasModel.mutateReturned s id xs) id).1
        = AliasModel.storedValue s id :=
  ⟨AliasModel.getValue_fst s id,
    AliasModel.storedValue_mutateReturned s id xs hwf,
    AliasModel.getValue_after_mutateReturned s id xs hwf⟩

/-- Witness for C10 at a concrete input: `"x"` stored at heap address 0
holding `[1, 2]`; the returned copy is overwritten with `[1, 2, 3]`. -/
theorem C10_get_extensions_returns_fresh_copy_witness :
    AliasModel.WF (⟨⟨[[1, 2]]⟩, [("x", 0)]⟩ : AliasModel.RegState Nat)
    ∧ ((AliasModel.getValue (⟨⟨[[1, 2]]⟩, [("x", 0)]⟩ : AliasModel.RegState Nat) "x").1
        = AliasModel.storedValue (⟨⟨[[1, 2]]⟩, [("x", 0)]⟩ : AliasModel.RegState Nat) "x"
      ∧ AliasModel.storedValue
          (AliasModel.mutateReturned
            (⟨⟨[[1, 2]]⟩, [("x", 0)]⟩ : AliasModel.RegState Nat) "x" [1, 2, 3]) "x"
        = AliasModel.storedValue (⟨⟨[[1, 2]]⟩, [("x", 0)]⟩ : AliasModel.RegState Nat) "x"
      ∧ (AliasModel.getValue
          (AliasModel.mutateReturned
            (⟨⟨[[1, 2]]⟩, [("x", 0)]⟩ : AliasModel.RegState Nat) "x" [1, 2, 3]) "x").1
        = AliasModel.storedValue (⟨⟨[[1, 2]]⟩, [("x", 0)]⟩ : AliasModel.RegState Nat) "x") := by
  have hwf : AliasModel.WF (⟨⟨[[1, 2]]⟩, [("x", 0)]⟩ : AliasModel.RegState Nat) := by
    intro id a ha
    simp only [dictLookup] at ha
    split at ha
    · cases ha
      simp [AliasModel.readCell]
    · cases ha
  exact ⟨hwf,
    C10_get_extensions_returns_fresh_copy
      (⟨⟨[[1, 2]]⟩, [("x", 0)]⟩ : AliasModel.RegState Nat) "x" [1, 2, 3] hwf⟩

theorem get_extensions_fst (s : RegistryState V) (id : String) :
    (get_extensions s id).1 = (dictLookup id s.extensions).getD [] := by
  simp only [get_extensions, protected_get_extensions, dictSetdefault_fst]

theorem get_extensions_fst_after_get (s : RegistryState V) (id₀ id : String) :
    (get_extensions (get_extensions s id₀).2 id).1 = (get_extensions s id).1 := by
  rw [get_extensions_fst, get_extensions_fst]
  show (dictLookup id (dictSetdefault id₀ [] s.extensions).2).getD [] = _
  by_cases h : id₀ = id
  · subst h
    rw [dictLookup_setdefault_self]
    cases dictLookup id₀ s.extensions <;> simp
  · rw [dictLookup_setdefault_ne h]

/-! The claims. -/

/-- C9: for every id that was never added as an extension point,
`remove_extension_point` raises `UnknownExtensionPoint` and returns with
the registry state (descriptors, stored contributions and listener table)
exactly as it was; no listener is called (the error result carries no
dispatch trace, and `_check_extension_point` raises before
`_call_listeners` is reached). -/
theorem C9_remove_unknown_extension_point (alive : List Nat)
    (s : RegistryState V) (id : String)
    (h : dictLookup id s.extension_points = none) :
    remove_extension_point alive s id
      = (.error (.unknownExtensionPoint id), s) :=
  remove_extension_point_of_unknown h alive

/-- Witness for C9 at a concrete input. -/
theorem C9_remove_unknown_extension_point_witness :
    dictLookup "x" (initialRegistry Nat).extension_points = none
    ∧ remove_extension_point [] (initialRegistry Nat) "x"
        = (.error (.unknownExtensionPoint "x"), initialRegistry Nat) :=
  ⟨rfl, C9_remove_unknown_extension_point [] (initialRegistry Nat) "x" rfl⟩

/-- C4: for an id with no registered descriptor, `set_extensions` raises
`UnknownExtensionPoint` and stores nothing (the state comes back
untouched), while `get_extensions` — a total function in this model, so
it can raise nothing — returns the empty list on every reachable state. -/
theorem C4_unknown_id_strict_write_permissive_read (alive : List Nat)
    (s : RegistryState V) (id : String) (exts : List V) (hr : Reachable s)
    (h : dictLookup id s.extension_points = none) :
    set_extensions alive s id exts = (.error (.unknownExtensionPoint id), s)
    ∧ (get_extensions s id).1 = [] := by
  refine ⟨set_extensions_of_unknown h alive exts, ?_⟩
  rw [get_extensions_fst]
  rcases (reachable_inv hr).2 id h with h₁ | h₁ <;> simp [h₁]

/-- Witness for C4 at a concrete input. -/
theorem C4_unknown_id_strict_write_permissive_read_witness :
    Reachable (initialRegistry Nat)
    ∧ dictLookup "x" (initialRegistry Nat).extension_points = none
    ∧ (set_extensions [] (initialRegistry Nat) "x" [1]
          = (.error (.unknownExtensionPoint "x"), initialRegistry Nat)
        ∧ (get_extensions (initialRegistry Nat) "x").1 = []) :=
  ⟨Reachable.init, rfl,
    C4_unknown_id_strict_write_permissive_read [] (initialRegistry Nat) "x"
      [1] Reachable.init rfl⟩

/-- C6: for a registered id, `get_extensions` immediately after
`set_extensions(id, v)` returns `v` (value equality; identity is outside
the pure model), and the `set_extensions` call itself succeeds. -/
theorem C6_get_after_set (alive : List Nat) (s : RegistryState V)
    (id : String) (exts : List V)
    (h : (dictLookup id s.extension_points).isSome) :
    (∃ tr, (set_extensions alive s id exts).1 = .ok tr)
    ∧ (get_extensions (set_extensions alive s id exts).2 id).1 = exts := by
  rw [set_extensions_of_known h]
  refine ⟨⟨_, rfl⟩, ?_⟩
  rw [get_extensions_fst]
  simp [afterSet, dictLookup_insert_self]

/-- Witness for C6 at a concrete input. -/
theorem C6_get_after_set_witness :
    (dictLookup "x"
        (add_extension_point (initialRegistry Nat) ⟨"x"⟩).extension_points).isSome
    ∧ ((∃ tr, (set_extensions []
            (add_extension_point (initialRegistry Nat) ⟨"x"⟩) "x" [1, 2]).1
          = .ok tr)
        ∧ (get_extensions
            (set_extensions [] (add_extension_point (initialRegistry Nat) ⟨"x"⟩)
              "x" [1, 2]).2 "x").1 = [1, 2]) :=
  ⟨by decide,
    C6_get_after_set [] (add_extension_point (initialRegistry Nat) ⟨"x"⟩)
      "x" [1, 2] (by decide)⟩

/-- C8: remove/re-add round trip — after `add_extension_point d`;
`set_extensions d.id exts`; `remove_extension_point d.id`;
`add_extension_point d` again, `get_extensions d.id` is empty: no
contribution survives the cycle. Stated over any starting state whose
`_extensions` dict is well-formed (no duplicate keys, as in a Python
dict), any descriptor and any contribution list. -/
theorem C8_remove_readd_roundtrip (alive₁ alive₂ : List Nat)
    (s : RegistryState V) (d : ExtensionPoint) (exts : List V)
    (hnd : (dictKeys s.extensions).Nodup) :
    (get_extensions
      (add_extension_point
        (remove_extension_point alive₂
          (set_extensions alive₁ (add_extension_point s d) d.id exts).2
          d.id).2
        d) d.id).1 = [] := by
  have h₁ : (dictLookup d.id (add_extension_point s d).extension_points).isSome := by
    simp [add_extension_point, dictLookup_insert_self]
  rw [set_extensions_of_known h₁]
  have h₂ : (dictLookup d.id
      (afterSet (add_extension_point s d) d.id exts).extension_points).isSome := by
    simpa [afterSet] using h₁
  rw [remove_extension_point_of_known h₂]
  rw [get_extensions_fst]
  have hkeys : (dictKeys (dictInsert d.id exts
      (dictSetdefault d.id [] s.extensions).2)).Nodup :=
    dictKeys_insert_nodup _ _ (dictKeys_setdefault_nodup _ _ hnd)
  simp [add_extension_point, afterRemove, afterSet,
    dictLookup_erase_self hkeys]

/-- Witness for C8 at a concrete input. -/
theorem C8_remove_readd_roundtrip_witness :
    (dictKeys (initialRegistry Nat).extensions).Nodup
    ∧ (get_extensions
        (add_extension_point
          (remove_extension_point []
            (set_extensions [] (add_extension_point (initialRegistry Nat) ⟨"x"⟩)
              "x" [1, 2, 3]).2
            "x").2
          ⟨"x"⟩) "x").1 = [] :=
  ⟨by decide,
    C8_remove_readd_roundtrip [] [] (initialRegistry Nat) ⟨"x"⟩ [1, 2, 3]
      (by decide)⟩

/-- C1 counterexample: with a registered extension point `"x"` holding
`[1, 2]` and one live listener, `remove_extension_point` dispatches an
event whose `index` is `0` (the source passes the literal `0` to
`_call_listeners`), not `None` as the claim states. -/
theorem C1_counterexample :
    (remove_extension_point [1]
      (add_extension_point_listener
        (set_extensions [] (add_extension_point (initialRegistry Nat) ⟨"x"⟩)
          "x" [1, 2]).2
        1 (some "x"))
      "x").1
      = .ok [(1, ⟨"x", [], [1, 2], some 0⟩)]
    ∧ (some 0 : Option Nat) ≠ none :=
  ⟨by rfl, by decide⟩

/-- C1 (amended): for a registered id with stored contributions `old`,
`remove_extension_point` deletes the descriptor and the stored
contributions and synchronously notifies every matching listener that is
still alive — in dispatch order — with
`ChangeEvent{added=[], removed=old, index=0}` (index `0`, not `None`). -/
theorem C1_remove_extension_point_notifies (alive : List Nat)
    (s : RegistryState V) (id : String) (old : List V)
    (hpt : (dictLookup id s.extension_points).isSome)
    (hold : dictLookup id s.extensions = some old)
    (hndp : (dictKeys s.extension_points).Nodup)
    (hnde : (dictKeys s.extensions).Nodup) :
    (remove_extension_point alive s id).1
      = .ok (((get_listener_refs s id).filter
            (fun r => decide (r ∈ alive))).map
          (fun l => (l, ⟨id, [], old, some 0⟩)))
    ∧ dictLookup id (remove_extension_point alive s id).2.extension_points
        = none
    ∧ dictLookup id (remove_extension_point alive s id).2.extensions = none := by
  rw [remove_extension_point_of_known hpt]
  refine ⟨?_, ?_, ?_⟩
  · rw [hold]
    rw [call_listeners_eq_filter]
    rfl
  · exact dictLookup_erase_self hndp
  · exact dictLookup_erase_self hnde

/-- Witness for the amended C1 at a concrete input. -/
theorem C1_remove_extension_point_notifies_witness :
    (dictLookup "x"
        ((add_extension_point_listener
          (set_extensions [] (add_extension_point (initialRegistry Nat) ⟨"x"⟩)
            "x" [1, 2]).2 1 (some "x"))).extension_points).isSome
    ∧ dictLookup "x"
        ((add_extension_point_listener
          (set_extensions [] (add_extension_point (initialRegistry Nat) ⟨"x"⟩)
            "x" [1, 2]).2 1 (some "x"))).extensions = some [1, 2]
    ∧ ((remove_extension_point [1]
          ((add_extension_point_listener
            (set_extensions [] (add_extension_point (initialRegistry Nat) ⟨"x"⟩)
              "x" [1, 2]).2 1 (some "x")))
          "x").1
        = .ok (((get_listener_refs
              ((add_extension_point_listener
                (set_extensions [] (add_extension_point (initialRegistry Nat) ⟨"x"⟩)
                  "x" [1, 2]).2 1 (some "x"))) "x").filter
              (fun r => decide (r ∈ [1]))).map
            (fun l => (l, ⟨"x", [], [1, 2], some 0⟩)))
        ∧ dictLookup "x"
            (remove_extension_point [1]
              ((add_extension_point_listener
                (set_extensions [] (add_extension_point (initialRegistry Nat) ⟨"x"⟩)
                  "x" [1, 2]).2 1 (some "x")))
              "x").2.extension_points = none
        ∧ dictLookup "x"
            (remove_extension_point [1]
              ((add_extension_point_listener
                (set_extensions [] (add_extension_point (initialRegistry Nat) ⟨"x"⟩)
                  "x" [1, 2]).2 1 (some "x")))
              "x").2.extensions = none) :=
  ⟨by decide, by decide,
    C1_remove_extension_point_notifies [1] _ "x" [1, 2] (by decide) (by decide)
      (by decide) (by decide)⟩

/-- C2 counterexample: with `"x"` registered and the table holding one
expired listener reference (`5`, with nothing alive), `set_extensions`
dispatches without error and calls nobody — but the expired entry is
still in `_listeners` afterwards: `_call_listeners` never prunes, so the
"expired entry is removed during dispatch" part of the claim is false. -/
theorem C2_counterexample :
    (set_extensions []
        (add_extension_point_listener
          (add_extension_point (initialRegistry Nat) ⟨"x"⟩) 5 (some "x"))
        "x" [7]).1 = .ok []
    ∧ (set_extensions []
        (add_extension_point_listener
          (add_extension_point (initialRegistry Nat) ⟨"x"⟩) 5 (some "x"))
        "x" [7]).2.listeners = [(some "x", [5])] :=
  ⟨by rfl, by rfl⟩

/-- C2 (amended): during dispatch of a change event (from
`set_extensions` or `remove_extension_point`), a listener whose weak
reference has expired is skipped without any error — the call succeeds
and the trace holds exactly the still-alive references, in order — but
the expired entry is NOT pruned: the listener table after dispatch is
exactly the table before. -/
theorem C2_expired_listener_skipped_not_pruned (alive : List Nat)
    (s : RegistryState V) (id : String) (exts : List V)
    (h : (dictLookup id s.extension_points).isSome) :
    ((set_extensions alive s id exts).1
        = .ok (((get_listener_refs s id).filter
              (fun r => decide (r ∈ alive))).map
            (fun l =>
              (l, ⟨id, exts, (dictLookup id s.extensions).getD [], none⟩)))
      ∧ (set_extensions alive s id exts).2.listeners = s.listeners)
    ∧ ((remove_extension_point alive s id).1
        = .ok (((get_listener_refs s id).filter
              (fun r => decide (r ∈ alive))).map
            (fun l =>
              (l, ⟨id, [], (dictLookup id s.extensions).getD [], some 0⟩)))
      ∧ (remove_extension_point alive s id).2.listeners = s.listeners) := by
  constructor
  · rw [set_extensions_of_known h]
    exact ⟨by rw [call_listeners_eq_filter]; rfl, rfl⟩
  · rw [remove_extension_point_of_known h]
    exact ⟨by rw [call_listeners_eq_filter]; rfl, rfl⟩

/-- Witness for the amended C2 at a concrete input: one expired reference
(`5`) and one live one (`6`). -/
theorem C2_expired_listener_skipped_not_pruned_witness :
    (dictLookup "x"
        ((add_extension_point_listener
          (add_extension_point_listener
            (add_extension_point (initialRegistry Nat) ⟨"x"⟩) 5 (some "x"))
          6 (some "x"))).extension_points).isSome
    ∧ (((set_extensions [6]
            ((add_extension_point_listener
              (add_extension_point_listener
                (add_extension_point (initialRegistry Nat) ⟨"x"⟩) 5 (some "x"))
              6 (some "x")))
            "x" [7]).1
          = .ok (((get_listener_refs
                ((add_extension_point_listener
                  (add_extension_point_listener
                    (add_extension_point (initialRegistry Nat) ⟨"x"⟩) 5 (some "x"))
                  6 (some "x"))) "x").filter
                (fun r => decide (r ∈ [6]))).map
              (fun l => (l, ⟨"x", [7],
                (dictLookup "x"
                  ((add_extension_point_listener
                    (add_extension_point_listener
                      (add_extension_point (initialRegistry Nat) ⟨"x"⟩) 5 (some "x"))
                    6 (some "x"))).extensions).getD [], none⟩)))
        ∧ (set_extensions [6]
            ((add_extension_point_listener
              (add_extension_point_listener
                (add_extension_point (initialRegistry Nat) ⟨"x"⟩) 5 (some "x"))
              6 (some "x")))
            "x" [7]).2.listeners
          = ((add_extension_point_listener
              (add_extension_point_listener
                (add_extension_point (initialRegistry Nat) ⟨"x"⟩) 5 (some "x"))
              6 (some "x"))).listeners)
      ∧ ((remove_extension_point [6]
            ((add_extension_point_listener
              (add_extension_point_listener
                (add_extension_point (initialRegistry Nat) ⟨"x"⟩) 5 (some "x"))
              6 (some "x")))
            "x").1
          = .ok (((get_listener_refs
                ((add_extension_point_listener
                  (add_extension_point_listener
                    (add_extension_point (initialRegistry Nat) ⟨"x"⟩) 5 (some "x"))
                  6 (some "x"))) "x").filter
                (fun r => decide (r ∈ [6]))).map
              (fun l => (l, ⟨"x", [],
                (dictLookup "x"
                  ((add_extension_point_listener
                    (add_extension_point_listener
                      (add_extension_point (initialRegistry Nat) ⟨"x"⟩) 5 (some "x"))
                    6 (some "x"))).extensions).getD [], some 0⟩)))
        ∧ (remove_extension_point [6]
            ((add_extension_point_listener
              (add_extension_point_listener
                (add_extension_point (initialRegistry Nat) ⟨"x"⟩) 5 (some "x"))
              6 (some "x")))
            "x").2.listeners
          = ((add_extension_point_listener
              (add_extension_point_listener
                (add_extension_point (initialRegistry Nat) ⟨"x"⟩) 5 (some "x"))
              6 (some "x"))).listeners)) :=
  ⟨by decide,
    C2_expired_listener_skipped_not_pruned [6] _ "x" [7] (by decide)⟩

/-- C5: on every mutation that dispatches a change event — both
`set_extensions` and `remove_extension_point` — the listeners registered
for the exact id are invoked first, in registration order, followed by
the wildcard listeners (`id=None`) in registration order: each trace
splits as the id-specific calls followed by the wildcard calls, and
`add_extension_point_listener` appends each new reference at the end of
its key's list. Concretely, with listener `1` on `"x"` and listener `2`
as a wildcard, `set_extensions "x" [1]` calls `1` before `2`, and
`remove_extension_point "x"` likewise calls `1` before `2`. -/
theorem C5_listener_dispatch_order (alive : List Nat) (s : RegistryState V)
    (id : String) (exts : List V)
    (h : (dictLookup id s.extension_points).isSome) :
    (set_extensions alive s id exts).1
      = .ok (call_listeners alive ((dictLookup (some id) s.listeners).getD [])
            id exts ((dictLookup id s.extensions).getD []) none
          ++ call_listeners alive
            ((dictLookup (none : Option String) s.listeners).getD [])
            id exts ((dictLookup id s.extensions).getD []) none)
    ∧ (remove_extension_point alive s id).1
      = .ok (call_listeners alive ((dictLookup (some id) s.listeners).getD [])
            id [] ((dictLookup id s.extensions).getD []) (some 0)
          ++ call_listeners alive
            ((dictLookup (none : Option String) s.listeners).getD [])
            id [] ((dictLookup id s.extensions).getD []) (some 0))
    ∧ (∀ (r : Nat) (k : Option String),
        dictLookup k (add_extension_point_listener s r k).listeners
          = some (((dictLookup k s.listeners).getD []) ++ [r]))
    ∧ (set_extensions [1, 2]
        (add_extension_point_listener
          (add_extension_point_listener
            (add_extension_point (initialRegistry Nat) ⟨"x"⟩) 1 (some "x"))
          2 none)
        "x" [1]).1
      = .ok [(1, ⟨"x", [1], [], none⟩), (2, ⟨"x", [1], [], none⟩)]
    ∧ (remove_extension_point [1, 2]
        (add_extension_point_listener
          (add_extension_point_listener
            (set_extensions [] (add_extension_point (initialRegistry Nat) ⟨"x"⟩)
              "x" [3]).2
            1 (some "x"))
          2 none)
        "x").1
      = .ok [(1, ⟨"x", [], [3], some 0⟩), (2, ⟨"x", [], [3], some 0⟩)] := by
  refine ⟨?_, ?_, ?_, by rfl, by rfl⟩
  · rw [set_extensions_of_known h]
    rw [show get_listener_refs (afterSet s id exts) id
        = get_listener_refs s id from rfl]
    rw [get_listener_refs, call_listeners_append]
  · rw [remove_extension_point_of_known h]
    rw [show get_listener_refs (afterRemove s id) id
        = get_listener_refs s id from rfl]
    rw [get_listener_refs, call_listeners_append]
  · intro r k
    rw [add_extension_point_listener]
    show dictLookup k (dictInsert k
      ((dictSetdefault k [] s.listeners).1 ++ [r])
      (dictSetdefault k [] s.listeners).2) = _
    rw [dictLookup_insert_self, dictSetdefault_fst]

/-- Witness for C5 at a concrete input. -/
theorem C5_listener_dispatch_order_witness :
    (dictLookup "x"
        (add_extension_point (initialRegistry Nat) ⟨"x"⟩).extension_points).isSome
    ∧ ((set_extensions [9] (add_extension_point (initialRegistry Nat) ⟨"x"⟩)
          "x" [4]).1
        = .ok (call_listeners [9]
              ((dictLookup (some "x")
                (add_extension_point (initialRegistry Nat) ⟨"x"⟩).listeners).getD [])
              "x" [4]
              ((dictLookup "x"
                (add_extension_point (initialRegistry Nat) ⟨"x"⟩).extensions).getD [])
              none
            ++ call_listeners [9]
              ((dictLookup (none : Option String)
                (add_extension_point (initialRegistry Nat) ⟨"x"⟩).listeners).getD [])
              "x" [4]
              ((dictLookup "x"
                (add_extension_point (initialRegistry Nat) ⟨"x"⟩).extensions).getD [])
              none)
      ∧ (remove_extension_point [9]
            (add_extension_point (initialRegistry Nat) ⟨"x"⟩) "x").1
        = .ok (call_listeners [9]
              ((dictLookup (some "x")
                (add_extension_point (initialRegistry Nat) ⟨"x"⟩).listeners).getD [])
              "x" []
              ((dictLookup "x"
                (add_extension_point (initialRegistry Nat) ⟨"x"⟩).extensions).getD [])
              (some 0)
            ++ call_listeners [9]
              ((dictLookup (none : Option String)
                (add_extension_point (initialRegistry Nat) ⟨"x"⟩).listeners).getD [])
              "x" []
              ((dictLookup "x"
                (add_extension_point (initialRegistry Nat) ⟨"x"⟩).extensions).getD [])
              (some 0))
      ∧ (∀ (r : Nat) (k : Option String),
          dictLookup k (add_extension_point_listener
              (add_extension_point (initialRegistry Nat) ⟨"x"⟩) r k).listeners
            = some (((dictLookup k
                (add_extension_point (initialRegistry Nat) ⟨"x"⟩).listeners).getD [])
              ++ [r]))
      ∧ (set_extensions [1, 2]
          (add_extension_point_listener
            (add_extension_point_listener
              (add_extension_point (initialRegistry Nat) ⟨"x"⟩) 1 (some "x"))
            2 none)
          "x" [1]).1
        = .ok [(1, ⟨"x", [1], [], none⟩), (2, ⟨"x", [1], [], none⟩)]
      ∧ (remove_extension_point [1, 2]
          (add_extension_point_listener
            (add_extension_point_listener
              (set_extensions [] (add_extension_point (initialRegistry Nat) ⟨"x"⟩)
                "x" [3]).2
              1 (some "x"))
            2 none)
          "x").1
        = .ok [(1, ⟨"x", [], [3], some 0⟩), (2, ⟨"x", [], [3], some 0⟩)]) :=
  ⟨by decide,
    C5_listener_dispatch_order [9]
      (add_extension_point (initialRegistry Nat) ⟨"x"⟩) "x" [4] (by decide)⟩

/-! Accessor behaviour of the view outside the trusted internal path. -/

theorem eqList_external [DecidableEq V] (s : RegistryState V)
    (v : ExtensionPointValue V) (h : v.internal_use = false)
    (other : List V) :
    ExtensionPointValue.eqList s v other
      = (decide ((get_extensions s v.bound_id).1 = other),
          (get_extensions s v.bound_id).2) := by
  simp [ExtensionPointValue.eqList, view_registry_extensions, h]

theorem len_external (s : RegistryState V) (v : ExtensionPointValue V)
    (h : v.internal_use = false) :
    ExtensionPointValue.len s v
      = ((get_extensions s v.bound_id).1.length,
          (get_extensions s v.bound_id).2) := by
  simp [ExtensionPointValue.len, view_registry_extensions, h]

theorem getitem_idx_external (s : RegistryState V)
    (v : ExtensionPointValue V) (h : v.internal_use = false) (i : Int) :
    ExtensionPointValue.getitem_idx s v i
      = (pyGetIdx (get_extensions s v.bound_id).1 i,
          (get_extensions s v.bound_id).2) := by
  simp [ExtensionPointValue.getitem_idx, view_registry_extensions, h]

theorem getitem_slice_external (s : RegistryState V)
    (v : ExtensionPointValue V) (h : v.internal_use = false)
    (a b : Option Int) :
    ExtensionPointValue.getitem_slice s v a b
      = (pyGetSlice (get_extensions s v.bound_id).1 a b,
          (get_extensions s v.bound_id).2) := by
  simp [ExtensionPointValue.getitem_slice, view_registry_extensions, h]

/-- C3: every direct mutation attempt on a cached extension-point view
from outside the trusted internal path raises no exception, emits the
non-fatal `RuntimeWarning` diagnostic, and leaves both the view and the
registry's stored value for every extension point unchanged
(`ReadOnlyViewSpec` spells the twelve operations out). -/
theorem C3_readonly_view_rejects_mutation (s : RegistryState V)
    (v : ExtensionPointValue V) (h : v.internal_use = false) :
    ReadOnlyViewSpec s v := by
  refine ⟨fun x => rfl, fun i x => rfl, fun x => rfl, ?_, ?_, ?_, ?_, rfl,
    fun i => rfl, fun xs => rfl, ?_, ?_⟩
  · intro i x
    simp [ExtensionPointValue.setitem_idx, h]
  · intro a b xs
    simp [ExtensionPointValue.setitem_slice, h]
  · intro xs
    refine ⟨rfl, ?_, ?_⟩
    · simp [ExtensionPointValue.iadd]
    · intro id
      have : (ExtensionPointValue.iadd s v xs).2.2.1
          = (get_extensions s v.bound_id).2 := by
        simp [ExtensionPointValue.iadd, getitem_slice_external s v h]
      rw [this, get_extensions_fst_after_get]
  · intro n
    refine ⟨rfl, ?_, ?_⟩
    · simp [ExtensionPointValue.imul]
    · intro id
      have : (ExtensionPointValue.imul s v n).2.2.1
          = (get_extensions s v.bound_id).2 := by
        simp [ExtensionPointValue.imul, getitem_slice_external s v h]
      rw [this, get_extensions_fst_after_get]
  · intro i
    simp [ExtensionPointValue.delitem_idx, h]
  · intro a b
    simp [ExtensionPointValue.delitem_slice, h]

/-- Witness for C3 at a concrete input: a view over `"x"` (registry value
`[1, 2]`) whose `_internal_use` flag is off. -/
theorem C3_readonly_view_rejects_mutation_witness :
    (⟨[9, 9], false, "x"⟩ : ExtensionPointValue Nat).internal_use = false
    ∧ ReadOnlyViewSpec
        (set_extensions [] (add_extension_point (initialRegistry Nat) ⟨"x"⟩)
          "x" [1, 2]).2
        ⟨[9, 9], false, "x"⟩ :=
  ⟨rfl, C3_readonly_view_rejects_mutation _ _ rfl⟩

/-- C7: outside the trusted internal path, equality, length and indexing
on a cached view are computed from the registry's current extensions for
the bound id (the spec-side `specDerivedValue`), not from the view's
cached backing store — whatever stale list the backing store holds. -/
theorem C7_accessors_rederive_from_registry [DecidableEq V]
    (s : RegistryState V) (v : ExtensionPointValue V)
    (h : v.internal_use = false) : AccessorRederiveSpec s v := by
  have h₂ : ∀ bk : List V,
      ({ v with backing := bk } : ExtensionPointValue V).internal_use
        = false := fun _ => h
  refine ⟨?_, ?_, ?_, ?_, ?_, ?_, ?_⟩
  · intro other
    rw [eqList_external s v h other]
    rfl
  · rw [len_external s v h]
    rfl
  · intro i
    rw [getitem_idx_external s v h i]
    rfl
  · intro a b
    rw [getitem_slice_external s v h a b]
    rfl
  · intro bk other
    rw [eqList_external s v h other, eqList_external s _ (h₂ bk) other]
  · intro bk
    rw [len_external s v h, len_external s _ (h₂ bk)]
  · intro bk i
    rw [getitem_idx_external s v h i, getitem_idx_external s _ (h₂ bk) i]

/-- Witness for C7 at a concrete input: the view's backing store is stale
(`[9, 9]`) while the registry holds `[1, 2]`. -/
theorem C7_accessors_rederive_from_registry_witness :
    (⟨[9, 9], false, "x"⟩ : ExtensionPointValue Nat).internal_use = false
    ∧ AccessorRederiveSpec
        (set_extensions [] (add_extension_point (initialRegistry Nat) ⟨"x"⟩)
          "x" [1, 2]).2
        ⟨[9, 9], false, "x"⟩ :=
  ⟨rfl, C7_accessors_rederive_from_registry _ _ rfl⟩

end Envisage
